import Mathlib

/-
  Verification development for the Filipino verification Telegram bot
  (src/main.py).  The persistent SQLite tables are modelled as association
  lists keyed by user id (resp. user id x chat id); each handler of the bot
  is translated into a pure state transformer on the database value, with
  the wall clock passed explicitly as an integer timestamp in seconds and
  the external phonenumbers library abstracted as a parse oracle.
  Telegram message sending is modelled as returning a decision value; the
  proactive sweep additionally returns the list of reminder messages it
  dispatched, with per-user delivery success given by an oracle (a failed
  delivery raises inside the per-user try block, skipping the increment).
-/

namespace CountryBlockerPH

/-- Timestamps in seconds (datetime values in the source). -/
abbrev Time := Int

abbrev UserId := Int

abbrev ChatId := Int

/-- Phone numbers and formatted numbers are modelled as lists of characters. -/
abbrev Phone := List Char

/-- Lookup in an association-list table (first row with the given key). -/
def tget {κ α : Type} [DecidableEq κ] (t : List (κ × α)) (k : κ) : Option α :=
  match t with
  | [] => none
  | (k2, v) :: rest => if k2 = k then some v else tget rest k

/-- SQL INSERT OR REPLACE on a table whose primary key is the first component:
replaces the first row with the given key, or appends a fresh row. -/
def tset {κ α : Type} [DecidableEq κ] (t : List (κ × α)) (k : κ) (v : α) : List (κ × α) :=
  match t with
  | [] => [(k, v)]
  | (k2, v2) :: rest => if k2 = k then (k, v) :: rest else (k2, v2) :: tset rest k v

/-- SQL UPDATE ... WHERE key = k: applies f to every row with the given key
(at most one under the primary-key invariant); a no-op when the key is absent. -/
def tupdate {κ α : Type} [DecidableEq κ] (t : List (κ × α)) (k : κ) (f : α → α) : List (κ × α) :=
  match t with
  | [] => []
  | (k2, v2) :: rest => if k2 = k then (k2, f v2) :: tupdate rest k f else (k2, v2) :: tupdate rest k f

/-- The keys of a table. -/
def tkeys {κ α : Type} (t : List (κ × α)) : List κ := t.map Prod.fst

/-- Row of the verified_users table. -/
structure VerifiedRow where
  username : String
  first_name : String
  phone_number : Phone
  verified_date : Time
  is_banned : Bool
deriving DecidableEq, Repr

/-- Row of the reminder_notifications table. -/
structure ReminderRow where
  first_reminder_date : Time
  reminder_count : Nat
  last_activity_date : Time
  last_reminder_date : Option Time
  verification_started : Bool
  reminder_paused : Bool
deriving DecidableEq, Repr

/-- Row of the join_requests table (keyed by user id and chat id). -/
structure JoinRow where
  request_date : Time
  status : String
deriving DecidableEq, Repr

/-- Row of the append-only verification_attempts table. -/
structure AttemptRow where
  user_id : UserId
  attempt_date : Time
  phone_number : Phone
  success : Bool
  error_message : Option String
deriving DecidableEq, Repr

/-- The whole SQLite database of DatabaseManager. -/
structure DB where
  verified_users : List (UserId × VerifiedRow)
  join_requests : List ((UserId × ChatId) × JoinRow)
  reminder_notifications : List (UserId × ReminderRow)
  verification_attempts : List AttemptRow
deriving DecidableEq, Repr

/-- The empty database produced by init_database. -/
def emptyDB : DB := ⟨[], [], [], []⟩

/-- DatabaseManager.add_verified_user: INSERT OR REPLACE into verified_users
with is_banned = FALSE, plus an appended successful verification attempt. -/
def add_verified_user (db : DB) (user_id : UserId) (username first_name : String)
    (phone_number : Phone) (now : Time) : DB :=
  { db with
    verified_users :=
      tset db.verified_users user_id ⟨username, first_name, phone_number, now, false⟩,
    verification_attempts :=
      db.verification_attempts ++ [⟨user_id, now, phone_number, true, none⟩] }

/-- DatabaseManager.is_verified: a verified_users row exists with is_banned = FALSE. -/
def is_verified (db : DB) (user_id : UserId) : Bool :=
  match tget db.verified_users user_id with
  | some row => !row.is_banned
  | none => false

/-- DatabaseManager.ban_user: UPDATE verified_users SET is_banned = TRUE. -/
def ban_user (db : DB) (user_id : UserId) : DB :=
  { db with
    verified_users :=
      tupdate db.verified_users user_id (fun row => { row with is_banned := true }) }

/-- DatabaseManager.add_join_request: INSERT OR REPLACE with status pending. -/
def add_join_request (db : DB) (user_id : UserId) (chat_id : ChatId) (now : Time) : DB :=
  { db with join_requests := tset db.join_requests (user_id, chat_id) ⟨now, "pending"⟩ }

/-- DatabaseManager.update_join_request_status. -/
def update_join_request_status (db : DB) (user_id : UserId) (chat_id : ChatId)
    (status : String) : DB :=
  { db with
    join_requests :=
      tupdate db.join_requests (user_id, chat_id) (fun row => { row with status := status }) }

/-- DatabaseManager.has_received_reminder: a reminder_notifications row exists. -/
def has_received_reminder (db : DB) (user_id : UserId) : Bool :=
  (tget db.reminder_notifications user_id).isSome

/-- DatabaseManager.add_reminder_notification: INSERT OR REPLACE listing only
the columns user_id, first_reminder_date, reminder_count = 1,
last_activity_date, last_reminder_date; the omitted columns
verification_started and reminder_paused take their DEFAULT FALSE. -/
def add_reminder_notification (db : DB) (user_id : UserId) (now : Time) : DB :=
  { db with
    reminder_notifications :=
      tset db.reminder_notifications user_id ⟨now, 1, now, some now, false, false⟩ }

/-- DatabaseManager.update_user_activity: INSERT OR REPLACE keeping the old
first_reminder_date, reminder_count, last_reminder_date, verification_started
and reminder_paused through COALESCE subselects (defaulting to now, 0, now,
FALSE, FALSE when the row or the value is missing) and setting
last_activity_date = now. -/
def update_user_activity (db : DB) (user_id : UserId) (now : Time) : DB :=
  let old := tget db.reminder_notifications user_id
  { db with
    reminder_notifications :=
      tset db.reminder_notifications user_id
        { first_reminder_date := ((old.map ReminderRow.first_reminder_date).getD now),
          reminder_count := ((old.map ReminderRow.reminder_count).getD 0),
          last_activity_date := now,
          last_reminder_date := some ((old.bind ReminderRow.last_reminder_date).getD now),
          verification_started := ((old.map ReminderRow.verification_started).getD false),
          reminder_paused := ((old.map ReminderRow.reminder_paused).getD false) } }

/-- DatabaseManager.mark_verification_started: like update_user_activity but
writes verification_started = TRUE. -/
def mark_verification_started (db : DB) (user_id : UserId) (now : Time) : DB :=
  let old := tget db.reminder_notifications user_id
  { db with
    reminder_notifications :=
      tset db.reminder_notifications user_id
        { first_reminder_date := ((old.map ReminderRow.first_reminder_date).getD now),
          reminder_count := ((old.map ReminderRow.reminder_count).getD 0),
          last_activity_date := now,
          last_reminder_date := some ((old.bind ReminderRow.last_reminder_date).getD now),
          verification_started := true,
          reminder_paused := ((old.map ReminderRow.reminder_paused).getD false) } }

/-- The WHERE clause of DatabaseManager.get_incomplete_verifications, per row:
LEFT JOIN verified_users (row missing or banned), last_activity_date,
first_reminder_date and last_reminder_date strictly before now minus 24 hours
(86400 seconds), reminder_count < 3, reminder_paused = FALSE. -/
def incomplete_pred (db : DB) (now : Time) (e : UserId × ReminderRow) : Bool :=
  (match tget db.verified_users e.1 with
   | none => true
   | some v => v.is_banned)
  && decide (e.2.last_activity_date < now - 86400)
  && decide (e.2.reminder_count < 3)
  && decide (e.2.first_reminder_date < now - 86400)
  && (e.2.reminder_paused == false)
  && (match e.2.last_reminder_date with
      | none => true
      | some t => decide (t < now - 86400))

/-- DatabaseManager.get_incomplete_verifications: SELECT over all
reminder_notifications rows filtered by the WHERE clause (the source projects
user_id, first_reminder_date, reminder_count, last_activity_date; here the
whole row is kept alongside the user id). -/
def get_incomplete_verifications (db : DB) (now : Time) : List (UserId × ReminderRow) :=
  db.reminder_notifications.filter (incomplete_pred db now)

/-- DatabaseManager.increment_reminder_count: UPDATE adding 1 to
reminder_count and setting last_reminder_date and last_activity_date to now. -/
def increment_reminder_count (db : DB) (user_id : UserId) (now : Time) : DB :=
  { db with
    reminder_notifications :=
      tupdate db.reminder_notifications user_id
        (fun row => { row with
          reminder_count := row.reminder_count + 1,
          last_reminder_date := some now,
          last_activity_date := now }) }

/-- DatabaseManager.add_verification_attempt: append-only insert. -/
def add_verification_attempt (db : DB) (user_id : UserId) (phone_number : Phone)
    (success : Bool) (error_message : Option String) (now : Time) : DB :=
  { db with
    verification_attempts :=
      db.verification_attempts ++ [⟨user_id, now, phone_number, success, error_message⟩] }

/-- DatabaseManager.pause_reminders: UPDATE SET reminder_paused = TRUE. -/
def pause_reminders (db : DB) (user_id : UserId) : DB :=
  { db with
    reminder_notifications :=
      tupdate db.reminder_notifications user_id
        (fun row => { row with reminder_paused := true }) }

/-- Result of phonenumbers.parse together with the values the source reads
off it: parsed.country_code, region_code_for_number, is_valid_number and
format_number in INTERNATIONAL format. -/
structure ParsedNumber where
  country_code : Nat
  region : Option String
  valid : Bool
  formatted : Phone
deriving DecidableEq, Repr

/-- Abstraction of the external phonenumbers library: parse either raises
NumberParseException (none) or yields a parsed number. -/
structure PhoneLib where
  parse : Phone → Option ParsedNumber

/-- The dictionary returned by PhoneVerifier.verify_phone_number. -/
structure VerifyResult where
  is_filipino : Bool
  country_code : Option Nat
  region : Option String
  formatted_number : Phone
  is_valid : Bool
deriving DecidableEq, Repr

/-- Character-list prefix test, recursing on the candidate prefix. -/
def hasPrefix : Phone → Phone → Bool
  | [], _ => true
  | _ :: _, [] => false
  | p :: ps, a :: as => p == a && hasPrefix ps as

/-- startswith of the source: pre is a prefix of s. -/
def startsWith (s pre : Phone) : Bool := hasPrefix pre s

/-- phone_number.replace removing every space and hyphen. -/
def cleanNumber (s : Phone) : Phone := s.filter (fun c => !(c == ' ' || c == '-'))

/-- Guard of the trunk-prefix branch: cleaned number starts with 09. -/
def guardTrunk (c : Phone) : Bool := startsWith c ('0' :: '9' :: [])

/-- Guard of the bare-mobile-prefix branch: starts with 9 and has 10 digits. -/
def guardBareMobile (c : Phone) : Bool := startsWith c ('9' :: []) && (c.length == 10)

/-- Guard of the bare-calling-code branch: starts with 63 and not with +63. -/
def guardBareCode (c : Phone) : Bool :=
  startsWith c ('6' :: '3' :: []) && !(startsWith c ('+' :: '6' :: '3' :: []))

/-- Guard of the no-country-code branch: no leading + and exactly 10 characters. -/
def guardNoCode (c : Phone) : Bool := !(startsWith c ('+' :: [])) && (c.length == 10)

/-- The if/elif normalization chain of PhoneVerifier.verify_phone_number
applied to the cleaned number. -/
def normalizePH (c : Phone) : Phone :=
  if guardTrunk c then '+' :: '6' :: '3' :: c.drop 1
  else if guardBareMobile c then '+' :: '6' :: '3' :: c
  else if guardBareCode c then '+' :: c
  else if guardNoCode c then
    (if startsWith c ('0' :: []) then '+' :: '6' :: '3' :: c.drop 1
     else '+' :: '6' :: '3' :: c)
  else c

/-- PhoneVerifier.verify_phone_number: clean, normalize, parse; on success the
verdict requires region PH, calling code 63 and numbering-plan validity all at
once; a NumberParseException yields the no-match shape echoing the raw input. -/
def verify_phone_number (lib : PhoneLib) (phone_number : Phone) : VerifyResult :=
  let cleaned := normalizePH (cleanNumber phone_number)
  match lib.parse cleaned with
  | some parsed =>
    let region := parsed.region
    let is_valid := parsed.valid
    let is_ph := decide (region = some "PH") && decide (parsed.country_code = 63) && is_valid
    { is_filipino := is_ph,
      country_code := some parsed.country_code,
      region := region,
      formatted_number := parsed.formatted,
      is_valid := is_valid }
  | none =>
    { is_filipino := false,
      country_code := none,
      region := none,
      formatted_number := phone_number,
      is_valid := false }

/-- A Telegram user as read by the handlers. -/
structure TgUser where
  id : UserId
  is_bot : Bool
  username : Option String
  first_name : String
deriving DecidableEq, Repr

/-- A shared contact card: the owning account and its phone number. -/
structure Contact where
  user_id : UserId
  phone_number : Phone
deriving DecidableEq, Repr

/-- The user-facing outcome a handler selects (the message it replies with). -/
inductive Decision where
  | skip
  | noContact
  | rejectForeignContact
  | verifiedSuccess (formatted : Phone)
  | verifiedFailure (region : Option String)
  | autoApprove
  | promptVerification (is_first_time : Bool)
deriving DecidableEq, Repr

/-- FilipinoBotManager.handle_join_request: skips bots and the admin, records
the join request as pending, touches activity, then either auto-approves a
verified user (marking the request approved) or prompts for verification,
with is_first_time computed from has_received_reminder and a fresh
ReminderState written by add_reminder_notification on the first-time branch.
The Telegram approve and send calls are modelled as succeeding. -/
def handle_join_request (admin : UserId) (db : DB) (user : TgUser) (chat : ChatId)
    (now : Time) : DB × Decision :=
  if user.is_bot = true ∨ user.id = admin then (db, Decision.skip)
  else
    let db1 := add_join_request db user.id chat now
    let db2 := update_user_activity db1 user.id now
    if is_verified db2 user.id then
      (update_join_request_status db2 user.id chat "approved", Decision.autoApprove)
    else
      let is_first_reminder := !has_received_reminder db2 user.id
      if is_first_reminder then
        (add_reminder_notification db2 user.id now, Decision.promptVerification true)
      else
        (db2, Decision.promptVerification false)

/-- Region text interpolated into the failure audit message: a missing region
renders as the Python literal None. -/
def regionText (r : Option String) : String :=
  match r with
  | some s => s
  | none => "None"

/-- FilipinoBotManager.handle_contact: touches activity first, then rejects a
missing contact, then rejects a contact owned by another account, otherwise
classifies the phone number and either upserts the verified identity (which
also appends a successful attempt) or appends a failed attempt. -/
def handle_contact (lib : PhoneLib) (db : DB) (user : TgUser) (contact : Option Contact)
    (now : Time) : DB × Decision :=
  let db1 := update_user_activity db user.id now
  match contact with
  | none => (db1, Decision.noContact)
  | some ct =>
    if ct.user_id ≠ user.id then (db1, Decision.rejectForeignContact)
    else
      let verification_result := verify_phone_number lib ct.phone_number
      if verification_result.is_filipino then
        (add_verified_user db1 user.id (user.username.getD "") user.first_name
           verification_result.formatted_number now,
         Decision.verifiedSuccess verification_result.formatted_number)
      else
        (add_verification_attempt db1 user.id ct.phone_number false
           (some ("Not Filipino number: " ++ regionText verification_result.region)) now,
         Decision.verifiedFailure verification_result.region)

/-- FilipinoBotManager.start_command state effects: touch activity and mark
verification started (the replies carry no further state change). -/
def start_command (db : DB) (user : TgUser) (now : Time) : DB :=
  mark_verification_started (update_user_activity db user.id now) user.id now

/-- FilipinoBotManager.pause_reminders_command state effects. -/
def pause_reminders_command (db : DB) (user : TgUser) (now : Time) : DB :=
  pause_reminders (update_user_activity db user.id now) user.id

/-- FilipinoBotManager.help_command and stats_command state effects. -/
def activity_only_command (db : DB) (user : TgUser) (now : Time) : DB :=
  update_user_activity db user.id now

/-- FilipinoBotManager.ban_user_command state effects: the admin bans a user
other than the admin account. -/
def ban_user_command (admin : UserId) (db : DB) (target : UserId) : DB :=
  if target = admin then db else ban_user db target

/-- The two proactive reminder message stages. -/
inductive Tier where
  | secondStage
  | finalStage
deriving DecidableEq, Repr

/-- The tier dispatch of the effective send_proactive_reminders (the second
definition in the class body, which shadows the earlier one): stored count 1
selects the second-stage message, 2 the final-stage message, anything else is
skipped by the continue branch. -/
def reminderTier (reminder_count : Nat) : Option Tier :=
  if reminder_count = 1 then some Tier.secondStage
  else if reminder_count = 2 then some Tier.finalStage
  else none

/-- The body of the per-user loop of send_proactive_reminders: select the tier
from the snapshot count (the continue branch skips), attempt delivery (a
failure is caught per user and skips the increment), on success increment the
reminder count and record the delivered message. -/
def sweepStep (now : Time) (deliverOk : UserId → Bool)
    (acc : DB × List (UserId × Tier)) (e : UserId × ReminderRow) :
    DB × List (UserId × Tier) :=
  match reminderTier e.2.reminder_count with
  | none => acc
  | some t =>
    if deliverOk e.1 then
      (increment_reminder_count acc.1 e.1 now, acc.2 ++ [(e.1, t)])
    else acc

/-- FilipinoBotManager.send_proactive_reminders (effective, later definition):
fetches the incomplete users once, then runs the per-user loop over that
snapshot.  Returns the updated database and the list of reminders actually
delivered. -/
def send_proactive_reminders (db : DB) (now : Time) (deliverOk : UserId → Bool) :
    DB × List (UserId × Tier) :=
  (get_incomplete_verifications db now).foldl (sweepStep now deliverOk) (db, [])

/-- An inbound event of the bot together with the data it carries. -/
inductive Event where
  | joinRequest (user : TgUser) (chat : ChatId) (now : Time)
  | startCmd (user : TgUser) (now : Time)
  | contactMsg (user : TgUser) (contact : Option Contact) (now : Time)
  | pauseCmd (user : TgUser) (now : Time)
  | activityCmd (user : TgUser) (now : Time)
  | banCmd (target : UserId)
  | sweep (now : Time) (deliverOk : UserId → Bool)

/-- One step of the bot: dispatch an event to its handler, keeping only the
database state. -/
def step (admin : UserId) (lib : PhoneLib) (db : DB) (e : Event) : DB :=
  match e with
  | Event.joinRequest user chat now => (handle_join_request admin db user chat now).1
  | Event.startCmd user now => start_command db user now
  | Event.contactMsg user contact now => (handle_contact lib db user contact now).1
  | Event.pauseCmd user now => pause_reminders_command db user now
  | Event.activityCmd user now => activity_only_command db user now
  | Event.banCmd target => ban_user_command admin db target
  | Event.sweep now deliverOk => (send_proactive_reminders db now deliverOk).1

/-- Run a sequence of events from a database state. -/
def run (admin : UserId) (lib : PhoneLib) (db : DB) (events : List Event) : DB :=
  events.foldl (step admin lib) db

/-- Modelled from the spec: the external phonenumbers library is not part of
this repository, so its behaviour on the literal numbers of the spec test
table is modelled here.  The string +639171234567 parses as a valid
Philippine number (region PH, calling code 63), +12025550178 parses as a
valid United States number (region US, calling code 1), and every other
string raises NumberParseException. -/
def phParse (s : Phone) : Option ParsedNumber :=
  if s = "+639171234567".toList then
    some ⟨63, some "PH", true, "+63 917 123 4567".toList⟩
  else if s = "+12025550178".toList then
    some ⟨1, some "US", true, "+1 202-555-0178".toList⟩
  else none

/-- The modelled phonenumbers library. -/
def phonelib : PhoneLib := ⟨phParse⟩

/-- The valid Philippine test number in international form. -/
def phPH : Phone := "+639171234567".toList

/-- The United States test number of the spec. -/
def phUS : Phone := "+1 202 555 0178".toList

/-- The unparseable test input of the spec. -/
def phBad : Phone := "not a number".toList

/-- The parse result of the Philippine test number under the modelled library. -/
def parsedPH : ParsedNumber := ⟨63, some "PH", true, "+63 917 123 4567".toList⟩

/-- The canonical international rendering of the Philippine test number. -/
def fmtPH : Phone := "+63 917 123 4567".toList

/-- A plain human user with id 1. -/
def tgUser1 : TgUser := ⟨1, false, none, "Ana"⟩

/-- A contact card owned by user 2 (not by user 1). -/
def contact2 : Contact := ⟨2, phPH⟩

/-- A contact card owned by user 1 carrying the Philippine test number. -/
def contact1 : Contact := ⟨1, phPH⟩

/-- A database whose only verified_users row is user 1, banned. -/
def dbBanned : DB := ⟨[(1, ⟨"", "Ana", [], 0, true⟩)], [], [], []⟩

/-- A reminder row with reminder_count 0, old enough to be swept. -/
def row3 : ReminderRow := ⟨100, 0, 200, some 200, false, false⟩

/-- A database whose only reminder row is row3 for user 1. -/
def db3 : DB := ⟨[], [], [(1, row3)], []⟩

/-- A reminder row whose first_reminder_date is exactly 24 hours before the
query instant 1000000 used in the boundary counterexample. -/
def row6 : ReminderRow := ⟨913600, 1, 800000, some 800000, false, false⟩

/-- A database whose only reminder row is row6 for user 1. -/
def db6 : DB := ⟨[], [], [(1, row6)], []⟩

/-- A database whose only verified_users row is the admin id 999, not banned. -/
def dbAdminVerified : DB := ⟨[(999, ⟨"", "Boss", [], 0, false⟩)], [], [], []⟩

/-- The admin user as a Telegram user record. -/
def tgAdmin : TgUser := ⟨999, false, none, "Boss"⟩

/-- The user holds a reminder row whose reminder_paused flag is set. -/
def pausedAt (db : DB) (u : UserId) : Prop :=
  ∃ row, tget db.reminder_notifications u = some row ∧ row.reminder_paused = true

/-- A database whose only reminder row is a paused row for user 1. -/
def dbPaused : DB := ⟨[], [], [(1, ⟨0, 1, 0, some 0, false, true⟩)], []⟩

/-- A concrete event sequence exercising a join request, the start command
and a sweep tick after the pause. -/
def evs9 : List Event :=
  [Event.joinRequest tgUser1 100 90000,
   Event.startCmd tgUser1 90001,
   Event.sweep 200000 (fun _ => true)]

end CountryBlockerPH

namespace CountryBlockerPH

/-- A cleaned number that starts with a plus sign is left unchanged by every
normalization heuristic: each guard of the if/elif chain is false on it. -/
theorem normalizePH_of_plus (c : Phone) (h : startsWith c ('+' :: []) = true) :
    normalizePH c = c := by
  cases c with
  | nil => exact absurd h (by decide)
  | cons a as =>
    have h2 : ('+' == a && hasPrefix [] as) = true := h
    rw [Bool.and_eq_true] at h2
    have ha : '+' = a := beq_iff_eq.mp h2.1
    subst ha
    rfl

/-- Claim C4: when the parse succeeds, is_filipino holds exactly when the
resolved region is PH, the parsed calling code is 63 and the number is valid;
in particular a non-PH region or an invalid number forces is_filipino false. -/
theorem c4_match_requires_all (lib : PhoneLib) (phone : Phone) (p : ParsedNumber)
    (h : lib.parse (normalizePH (cleanNumber phone)) = some p) :
    ((verify_phone_number lib phone).is_filipino = true ↔
      (p.region = some "PH" ∧ p.country_code = 63 ∧ p.valid = true)) ∧
    (p.region ≠ some "PH" → (verify_phone_number lib phone).is_filipino = false) ∧
    (p.valid = false → (verify_phone_number lib phone).is_filipino = false) := by
  have hiff : (verify_phone_number lib phone).is_filipino = true ↔
      (p.region = some "PH" ∧ p.country_code = 63 ∧ p.valid = true) := by
    simp only [verify_phone_number, h]
    simp [Bool.and_eq_true, decide_eq_true_eq, and_assoc]
  refine ⟨hiff, ?_, ?_⟩
  · intro hne
    cases hb : (verify_phone_number lib phone).is_filipino with
    | false => rfl
    | true => exact absurd (hiff.mp hb).1 hne
  · intro hval
    cases hb : (verify_phone_number lib phone).is_filipino with
    | false => rfl
    | true =>
      have := (hiff.mp hb).2.2
      rw [hval] at this
      exact absurd this (by decide)

/-- Witness for C4: the Philippine test number parses under the modelled
library and satisfies the three-way characterization. -/
theorem c4_witness :
    ((verify_phone_number phonelib phPH).is_filipino = true ↔
      (parsedPH.region = some "PH" ∧ parsedPH.country_code = 63 ∧ parsedPH.valid = true)) ∧
    (parsedPH.region ≠ some "PH" → (verify_phone_number phonelib phPH).is_filipino = false) ∧
    (parsedPH.valid = false → (verify_phone_number phonelib phPH).is_filipino = false) :=
  c4_match_requires_all phonelib phPH parsedPH (by decide)

/-- Claim C7: a parse failure is converted into the no-match result shape,
with is_filipino false, calling code and region missing, is_valid false and
the raw input echoed back unchanged; verify_phone_number is a total function
of its input, so it never raises. -/
theorem c7_parse_failure_shape (lib : PhoneLib) (phone : Phone)
    (h : lib.parse (normalizePH (cleanNumber phone)) = none) :
    verify_phone_number lib phone =
      { is_filipino := false, country_code := none, region := none,
        formatted_number := phone, is_valid := false } := by
  simp only [verify_phone_number, h]

/-- Witness for C7: the literal input from the spec, not a number, fails to
parse and yields the no-match shape echoing the raw input. -/
theorem c7_witness :
    verify_phone_number phonelib phBad =
      { is_filipino := false, country_code := none, region := none,
        formatted_number := phBad, is_valid := false } :=
  c7_parse_failure_shape phonelib phBad (by decide)

/-- Claim C8: a cleaned number already carrying a leading plus is passed to
the parser unchanged apart from space and hyphen stripping; the trunk-prefix
guard and the bare-mobile-prefix guard can never both hold, and whenever the
trunk-prefix guard holds the trunk-prefix rewrite is the one applied; the
United States test number classifies as no match with region US. -/
theorem c8_international_form_preserved :
    (∀ s : Phone, startsWith (cleanNumber s) ('+' :: []) = true →
      normalizePH (cleanNumber s) = cleanNumber s) ∧
    (∀ c : Phone, ¬(guardTrunk c = true ∧ guardBareMobile c = true)) ∧
    (∀ c : Phone, guardTrunk c = true → normalizePH c = '+' :: '6' :: '3' :: c.drop 1) ∧
    ((verify_phone_number phonelib phUS).is_filipino = false ∧
     (verify_phone_number phonelib phUS).region = some "US") := by
  refine ⟨?_, ?_, ?_, by decide⟩
  · intro s h
    exact normalizePH_of_plus _ h
  · rintro c ⟨h1, h2⟩
    cases c with
    | nil => exact absurd h1 (by decide)
    | cons a as =>
      have h1x : ('0' == a && hasPrefix ['9'] as) = true := h1
      rw [Bool.and_eq_true] at h1x
      have e0 : '0' = a := beq_iff_eq.mp h1x.1
      have h2x : (('9' == a && hasPrefix [] as) && ((a :: as).length == 10)) = true := h2
      rw [Bool.and_eq_true, Bool.and_eq_true] at h2x
      have e9 : '9' = a := beq_iff_eq.mp h2x.1.1
      rw [← e0] at e9
      exact absurd e9 (by decide)
  · intro c h
    simp [normalizePH, h]

/-- Witness for C8: the United States test number reaches the parser with
only spaces stripped. -/
theorem c8_witness : normalizePH (cleanNumber phUS) = cleanNumber phUS :=
  c8_international_form_preserved.1 phUS (by decide)

/-- Looking up the key just written by tset yields the written value. -/
theorem tget_tset_self {κ α : Type} [DecidableEq κ] (t : List (κ × α)) (k : κ) (v : α) :
    tget (tset t k v) k = some v := by
  induction t with
  | nil => simp [tset, tget]
  | cons hd tl ih =>
    obtain ⟨k2, v2⟩ := hd
    by_cases hk : k2 = k
    · subst hk
      simp [tset, tget]
    · simp [tset, tget, hk, ih]

/-- Writing one key with tset leaves lookups of other keys unchanged. -/
theorem tget_tset_ne {κ α : Type} [DecidableEq κ] (t : List (κ × α)) (k k2 : κ) (v : α)
    (h : k2 ≠ k) : tget (tset t k v) k2 = tget t k2 := by
  induction t with
  | nil => simp [tset, tget, Ne.symm h]
  | cons hd tl ih =>
    obtain ⟨k3, v3⟩ := hd
    by_cases hk : k3 = k
    · subst hk
      simp [tset, tget, Ne.symm h]
    · simp [tset, tget, hk, ih]

/-- Looking up the updated key after tupdate maps the old value through f. -/
theorem tget_tupdate_self {κ α : Type} [DecidableEq κ] (t : List (κ × α)) (k : κ)
    (f : α → α) : tget (tupdate t k f) k = (tget t k).map f := by
  induction t with
  | nil => simp [tupdate, tget]
  | cons hd tl ih =>
    obtain ⟨k2, v2⟩ := hd
    by_cases hk : k2 = k
    · subst hk
      simp [tupdate, tget]
    · simp [tupdate, tget, hk, ih]

/-- tupdate of one key leaves lookups of other keys unchanged. -/
theorem tget_tupdate_ne {κ α : Type} [DecidableEq κ] (t : List (κ × α)) (k k2 : κ)
    (f : α → α) (h : k2 ≠ k) : tget (tupdate t k f) k2 = tget t k2 := by
  induction t with
  | nil => simp [tupdate, tget]
  | cons hd tl ih =>
    obtain ⟨k3, v3⟩ := hd
    by_cases hk : k3 = k
    · subst hk
      simp [tupdate, tget, Ne.symm h, ih]
    · simp [tupdate, tget, hk, ih]

/-- tupdate never changes the key list of a table. -/
theorem tkeys_tupdate {κ α : Type} [DecidableEq κ] (t : List (κ × α)) (k : κ)
    (f : α → α) : tkeys (tupdate t k f) = tkeys t := by
  induction t with
  | nil => simp [tupdate]
  | cons hd tl ih =>
    obtain ⟨k2, v2⟩ := hd
    by_cases hk : k2 = k
    · subst hk
      simp [tupdate, tkeys] at ih ⊢
      exact ih
    · simp [tupdate, tkeys, hk] at ih ⊢
      exact ih

/-- The key list of a table cons. -/
theorem tkeys_cons {κ α : Type} (k2 : κ) (v2 : α) (tl : List (κ × α)) :
    tkeys ((k2, v2) :: tl) = k2 :: tkeys tl := rfl

/-- Any key of tset t k v is either k or a key of t. -/
theorem mem_tkeys_tset {κ α : Type} [DecidableEq κ] (t : List (κ × α)) (k a : κ) (v : α)
    (h : a ∈ tkeys (tset t k v)) : a = k ∨ a ∈ tkeys t := by
  induction t with
  | nil =>
    exact Or.inl (List.mem_singleton.mp h)
  | cons hd tl ih =>
    obtain ⟨k2, v2⟩ := hd
    rw [tkeys_cons]
    by_cases hk : k2 = k
    · rw [show tset ((k2, v2) :: tl) k v = (k, v) :: tl from by simp [tset, hk],
        tkeys_cons] at h
      rcases List.mem_cons.mp h with h2 | h2
      · exact Or.inl h2
      · exact Or.inr (List.mem_cons_of_mem _ h2)
    · rw [show tset ((k2, v2) :: tl) k v = (k2, v2) :: tset tl k v from by simp [tset, hk],
        tkeys_cons] at h
      rcases List.mem_cons.mp h with h2 | h2
      · exact Or.inr (h2 ▸ List.mem_cons_self _ _)
      · rcases ih h2 with h3 | h3
        · exact Or.inl h3
        · exact Or.inr (List.mem_cons_of_mem _ h3)

/-- tset preserves distinctness of the key list. -/
theorem nodup_tkeys_tset {κ α : Type} [DecidableEq κ] (t : List (κ × α)) (k : κ) (v : α)
    (h : (tkeys t).Nodup) : (tkeys (tset t k v)).Nodup := by
  induction t with
  | nil => simp [tset, tkeys]
  | cons hd tl ih =>
    obtain ⟨k2, v2⟩ := hd
    rw [tkeys_cons, List.nodup_cons] at h
    by_cases hk : k2 = k
    · rw [show tset ((k2, v2) :: tl) k v = (k, v) :: tl from by simp [tset, hk],
        tkeys_cons, List.nodup_cons]
      exact ⟨by rw [← hk]; exact h.1, h.2⟩
    · rw [show tset ((k2, v2) :: tl) k v = (k2, v2) :: tset tl k v from by simp [tset, hk],
        tkeys_cons, List.nodup_cons]
      refine ⟨?_, ih h.2⟩
      intro hmem
      rcases mem_tkeys_tset tl k k2 v hmem with h2 | h2
      · exact hk h2
      · exact h.1 h2

/-- In a table with distinct keys, membership of a row determines the lookup. -/
theorem tget_of_mem_nodup {κ α : Type} [DecidableEq κ] (t : List (κ × α)) (k : κ) (v : α)
    (hnd : (tkeys t).Nodup) (hmem : (k, v) ∈ t) : tget t k = some v := by
  induction t with
  | nil => simp at hmem
  | cons hd tl ih =>
    obtain ⟨k2, v2⟩ := hd
    rw [tkeys_cons, List.nodup_cons] at hnd
    rcases List.mem_cons.mp hmem with h | h
    · injection h with e1 e2
      subst e1
      subst e2
      simp [tget]
    · have hk : k2 ≠ k := by
        intro e
        subst e
        exact hnd.1 (List.mem_map_of_mem Prod.fst h)
      simp only [tget, if_neg hk]
      exact ih hnd.2 h

/-- Claim C1 (amended): a contact owned by a different account is rejected
with the share-your-own-number decision; no VerifiedIdentity row and no
VerificationAttempt row is touched, and the only state change is the
unconditional activity touch on the ReminderState of the submitting user. -/
theorem c1_foreign_contact_rejected (lib : PhoneLib) (db : DB) (user : TgUser)
    (ct : Contact) (now : Time) (h : ct.user_id ≠ user.id) :
    handle_contact lib db user (some ct) now =
      (update_user_activity db user.id now, Decision.rejectForeignContact) ∧
    (update_user_activity db user.id now).verified_users = db.verified_users ∧
    (update_user_activity db user.id now).verification_attempts = db.verification_attempts ∧
    (update_user_activity db user.id now).join_requests = db.join_requests := by
  refine ⟨?_, rfl, rfl, rfl⟩
  simp [handle_contact, h]

/-- Witness for C1: a concrete foreign contact submission on the empty state. -/
theorem c1_witness :
    handle_contact phonelib emptyDB tgUser1 (some contact2) 0 =
      (update_user_activity emptyDB tgUser1.id 0, Decision.rejectForeignContact) ∧
    (update_user_activity emptyDB tgUser1.id 0).verified_users = emptyDB.verified_users ∧
    (update_user_activity emptyDB tgUser1.id 0).verification_attempts =
      emptyDB.verification_attempts ∧
    (update_user_activity emptyDB tgUser1.id 0).join_requests = emptyDB.join_requests :=
  c1_foreign_contact_rejected phonelib emptyDB tgUser1 contact2 0 (by decide)

/-- Counterexample to C1 as stated: the foreign-contact rejection does mutate
ReminderState: on the empty database the call creates a reminder row for the
submitting user (the activity touch), so the no-state-mutation part fails. -/
theorem c1_counterexample :
    (handle_contact phonelib emptyDB tgUser1 (some contact2) 0).2 =
      Decision.rejectForeignContact ∧
    (handle_contact phonelib emptyDB tgUser1 (some contact2) 0).1.reminder_notifications ≠
      emptyDB.reminder_notifications := by decide

/-- Claim C2 (code behaviour at the failing input): on the very first join
request of a fresh user the handler reports is_first_time = false and stores
a reminder row with reminder_count 0, because update_user_activity inserts
the ReminderState row before has_received_reminder is consulted. -/
theorem c2_first_join_request_not_first_time :
    (handle_join_request 999 emptyDB tgUser1 100 0).2 = Decision.promptVerification false ∧
    tget (handle_join_request 999 emptyDB tgUser1 100 0).1.reminder_notifications 1 =
      some ⟨0, 0, 0, some 0, false, false⟩ := by decide

/-- A join request from a non-bot user other than the admin is not skipped. -/
theorem hjr_not_skipped (admin : UserId) (user : TgUser) (hbot : user.is_bot = false)
    (hadmin : user.id ≠ admin) : ¬(user.is_bot = true ∨ user.id = admin) := by
  rintro (h | h)
  · rw [hbot] at h
    exact Bool.false_ne_true h
  · exact hadmin h

/-- After update_user_activity a reminder row for the touched user exists. -/
theorem has_received_update_self (db : DB) (u : UserId) (now : Time) :
    has_received_reminder (update_user_activity db u now) u = true := by
  unfold has_received_reminder update_user_activity
  simp [tget_tset_self]

/-- Reduction of handle_join_request on a verified, unskipped requester. -/
theorem hjr_verified (admin : UserId) (db : DB) (user : TgUser) (chat : ChatId) (now : Time)
    (hbot : user.is_bot = false) (hadmin : user.id ≠ admin)
    (hver : is_verified db user.id = true) :
    handle_join_request admin db user chat now =
      (update_join_request_status
        (update_user_activity (add_join_request db user.id chat now) user.id now)
        user.id chat "approved",
       Decision.autoApprove) := by
  have hg := hjr_not_skipped admin user hbot hadmin
  have hver2 : is_verified
      (update_user_activity (add_join_request db user.id chat now) user.id now) user.id =
      true := hver
  simp [handle_join_request, hg, hver2]

/-- Reduction of handle_join_request on an unverified, unskipped requester:
because update_user_activity has already inserted the reminder row, the
first-time branch is never taken and the decision reports false. -/
theorem hjr_unverified (admin : UserId) (db : DB) (user : TgUser) (chat : ChatId) (now : Time)
    (hbot : user.is_bot = false) (hadmin : user.id ≠ admin)
    (hver : is_verified db user.id = false) :
    handle_join_request admin db user chat now =
      (update_user_activity (add_join_request db user.id chat now) user.id now,
       Decision.promptVerification false) := by
  have hg := hjr_not_skipped admin user hbot hadmin
  have hver2 : is_verified
      (update_user_activity (add_join_request db user.id chat now) user.id now) user.id =
      false := hver
  have hrec := has_received_update_self (add_join_request db user.id chat now) user.id now
  simp [handle_join_request, hg, hver2, hrec]

/-- Claim C5 (amended): for join requests from non-bot users other than the
configured admin, a verified non-banned identity is always auto-approved and
the join record transitions to approved, while a banned identity is never
auto-approved and receives the prompt-verification decision instead.  (A join
request from a bot or from the admin account is skipped with no decision.) -/
theorem c5_gating (admin : UserId) (db : DB) (user : TgUser) (chat : ChatId) (now : Time)
    (hbot : user.is_bot = false) (hadmin : user.id ≠ admin) :
    (is_verified db user.id = true →
      (handle_join_request admin db user chat now).2 = Decision.autoApprove ∧
      tget (handle_join_request admin db user chat now).1.join_requests (user.id, chat) =
        some ⟨now, "approved"⟩) ∧
    (∀ v, tget db.verified_users user.id = some v → v.is_banned = true →
      (handle_join_request admin db user chat now).2 = Decision.promptVerification false ∧
      (handle_join_request admin db user chat now).2 ≠ Decision.autoApprove) := by
  constructor
  · intro hver
    rw [hjr_verified admin db user chat now hbot hadmin hver]
    refine ⟨rfl, ?_⟩
    show tget (tupdate (tset db.join_requests (user.id, chat) ⟨now, "pending"⟩)
        (user.id, chat) (fun row => { row with status := "approved" })) (user.id, chat) =
      some ⟨now, "approved"⟩
    rw [tget_tupdate_self, tget_tset_self]
    rfl
  · intro v hv hb
    have hver : is_verified db user.id = false := by
      unfold is_verified
      rw [hv]
      simp [hb]
    rw [hjr_unverified admin db user chat now hbot hadmin hver]
    exact ⟨rfl, by simp⟩

/-- Witness for C5: user 1 with a banned identity is prompted, not approved. -/
theorem c5_witness :
    (is_verified dbBanned tgUser1.id = true →
      (handle_join_request 999 dbBanned tgUser1 100 0).2 = Decision.autoApprove ∧
      tget (handle_join_request 999 dbBanned tgUser1 100 0).1.join_requests (tgUser1.id, 100) =
        some ⟨0, "approved"⟩) ∧
    (∀ v, tget dbBanned.verified_users tgUser1.id = some v → v.is_banned = true →
      (handle_join_request 999 dbBanned tgUser1 100 0).2 = Decision.promptVerification false ∧
      (handle_join_request 999 dbBanned tgUser1 100 0).2 ≠ Decision.autoApprove) :=
  c5_gating 999 dbBanned tgUser1 100 0 rfl (by decide)

/-- Counterexample to C5 as stated: a join request by the admin account with
a verified, non-banned identity on file is skipped by the bot/admin guard, so
not every such join request auto-approves. -/
theorem c5_counterexample :
    is_verified dbAdminVerified tgAdmin.id = true ∧
    (handle_join_request 999 dbAdminVerified tgAdmin 100 0).2 ≠ Decision.autoApprove ∧
    (handle_join_request 999 dbAdminVerified tgAdmin 100 0).2 = Decision.skip ∧
    (handle_join_request 999 dbAdminVerified tgAdmin 100 0).1 = dbAdminVerified := by decide

/-- Reduction of handle_contact on an own contact classified as Filipino. -/
theorem handle_contact_success (lib : PhoneLib) (db : DB) (user : TgUser) (ct : Contact)
    (now : Time) (hown : ct.user_id = user.id)
    (hmatch : (verify_phone_number lib ct.phone_number).is_filipino = true) :
    handle_contact lib db user (some ct) now =
      (add_verified_user (update_user_activity db user.id now) user.id
        (user.username.getD "") user.first_name
        (verify_phone_number lib ct.phone_number).formatted_number now,
       Decision.verifiedSuccess (verify_phone_number lib ct.phone_number).formatted_number) := by
  simp [handle_contact, hown, hmatch]

/-- Claim C10: a successful contact submission with a number classified as
Filipino unconditionally overwrites the VerifiedIdentity row with is_banned
false, even when the prior row was banned, so the user regains verified
status and auto-approval on the next join request. -/
theorem c10_reverify_unbans (lib : PhoneLib) (db : DB) (user : TgUser) (ct : Contact)
    (now : Time) (hown : ct.user_id = user.id)
    (hmatch : (verify_phone_number lib ct.phone_number).is_filipino = true) :
    tget (handle_contact lib db user (some ct) now).1.verified_users user.id =
      some ⟨user.username.getD "", user.first_name,
            (verify_phone_number lib ct.phone_number).formatted_number, now, false⟩ ∧
    is_verified (handle_contact lib db user (some ct) now).1 user.id = true ∧
    (handle_contact lib db user (some ct) now).2 =
      Decision.verifiedSuccess (verify_phone_number lib ct.phone_number).formatted_number ∧
    ∀ (admin : UserId) (chat : ChatId) (now2 : Time), user.is_bot = false → user.id ≠ admin →
      (handle_join_request admin (handle_contact lib db user (some ct) now).1 user chat now2).2 =
        Decision.autoApprove := by
  rw [handle_contact_success lib db user ct now hown hmatch]
  have h1 : tget (add_verified_user (update_user_activity db user.id now) user.id
      (user.username.getD "") user.first_name
      (verify_phone_number lib ct.phone_number).formatted_number now).verified_users user.id =
      some ⟨user.username.getD "", user.first_name,
            (verify_phone_number lib ct.phone_number).formatted_number, now, false⟩ := by
    unfold add_verified_user
    exact tget_tset_self _ _ _
  have h2 : is_verified (add_verified_user (update_user_activity db user.id now) user.id
      (user.username.getD "") user.first_name
      (verify_phone_number lib ct.phone_number).formatted_number now) user.id = true := by
    unfold is_verified
    rw [h1]
    rfl
  refine ⟨h1, h2, rfl, ?_⟩
  intro admin chat now2 hbot hadmin
  rw [hjr_verified admin _ user chat now2 hbot hadmin h2]

/-- Witness for C10: user 1, banned on file, resubmits the valid Philippine
test number and is unbanned, verified and auto-approved again. -/
theorem c10_witness :
    tget (handle_contact phonelib dbBanned tgUser1 (some contact1) 0).1.verified_users 1 =
      some ⟨"", "Ana", fmtPH, 0, false⟩ ∧
    is_verified (handle_contact phonelib dbBanned tgUser1 (some contact1) 0).1 1 = true ∧
    (handle_contact phonelib dbBanned tgUser1 (some contact1) 0).2 =
      Decision.verifiedSuccess fmtPH ∧
    (handle_join_request 999 (handle_contact phonelib dbBanned tgUser1 (some contact1) 0).1
      tgUser1 100 5).2 = Decision.autoApprove := by
  have h := c10_reverify_unbans phonelib dbBanned tgUser1 contact1 0 rfl (by decide)
  exact ⟨h.1, h.2.1, h.2.2.1, h.2.2.2 999 100 5 rfl (by decide)⟩

/-- Row-level reading of the WHERE clause of get_incomplete_verifications. -/
theorem incomplete_pred_iff (db : DB) (now : Time) (u : UserId) (row : ReminderRow) :
    incomplete_pred db now (u, row) = true ↔
      ((tget db.verified_users u = none ∨
          ∃ v, tget db.verified_users u = some v ∧ v.is_banned = true) ∧
       row.reminder_paused = false ∧
       row.reminder_count < 3 ∧
       row.first_reminder_date < now - 86400 ∧
       row.last_activity_date < now - 86400 ∧
       (row.last_reminder_date = none ∨
          ∃ t, row.last_reminder_date = some t ∧ t < now - 86400)) := by
  unfold incomplete_pred
  cases hv : tget db.verified_users u with
  | none =>
    cases hl : row.last_reminder_date with
    | none =>
      simp [hv, hl, Bool.and_eq_true, decide_eq_true_eq]
      tauto
    | some t =>
      simp [hv, hl, Bool.and_eq_true, decide_eq_true_eq]
      tauto
  | some v =>
    cases hl : row.last_reminder_date with
    | none =>
      simp [hv, hl, Bool.and_eq_true, decide_eq_true_eq]
      tauto
    | some t =>
      simp [hv, hl, Bool.and_eq_true, decide_eq_true_eq]
      tauto

/-- Claim C6 (amended): get_incomplete_verifications selects exactly the
reminder rows of users that are not verified (no VerifiedIdentity row or a
banned one), not paused, with reminder_count < 3, and whose
first_prompt_at, last_activity_at and (when present) last_reminder_at lie
strictly more than 24 hours in the past; the boundary case of a timestamp
exactly 24 hours old is excluded by the strict SQL comparison. -/
theorem c6_selection_exactly (db : DB) (now : Time) (u : UserId) (row : ReminderRow) :
    (u, row) ∈ get_incomplete_verifications db now ↔
      ((u, row) ∈ db.reminder_notifications ∧
       (tget db.verified_users u = none ∨
          ∃ v, tget db.verified_users u = some v ∧ v.is_banned = true) ∧
       row.reminder_paused = false ∧
       row.reminder_count < 3 ∧
       row.first_reminder_date < now - 86400 ∧
       row.last_activity_date < now - 86400 ∧
       (row.last_reminder_date = none ∨
          ∃ t, row.last_reminder_date = some t ∧ t < now - 86400)) := by
  unfold get_incomplete_verifications
  rw [List.mem_filter, incomplete_pred_iff]

/-- Counterexample to C6 as stated: user 1 satisfies every claimed conjunct
with at-least-24-hours readings, the first prompt being exactly 24 hours old,
yet the strict SQL comparison leaves the selection empty. -/
theorem c6_counterexample :
    (1, row6) ∈ db6.reminder_notifications ∧
    tget db6.verified_users 1 = none ∧
    row6.reminder_paused = false ∧
    row6.reminder_count < 3 ∧
    row6.first_reminder_date ≤ (1000000 : Int) - 86400 ∧
    row6.last_activity_date < (1000000 : Int) - 86400 ∧
    row6.last_reminder_date = some 800000 ∧
    ((800000 : Int) < 1000000 - 86400) ∧
    get_incomplete_verifications db6 1000000 = [] := by decide

/-- The messages delivered by the sweep loop are exactly the selected users
whose snapshot count selects a tier and whose delivery succeeds. -/
theorem sweep_fold_messages (now : Time) (deliverOk : UserId → Bool) :
    ∀ (l : List (UserId × ReminderRow)) (db : DB) (ms : List (UserId × Tier)),
      (l.foldl (sweepStep now deliverOk) (db, ms)).2 =
        ms ++ l.filterMap (fun e =>
          match reminderTier e.2.reminder_count with
          | some t => if deliverOk e.1 then some (e.1, t) else none
          | none => none) := by
  intro l
  induction l with
  | nil =>
    intro db ms
    simp
  | cons e tl ih =>
    intro db ms
    rw [List.foldl_cons, List.filterMap_cons]
    cases ht : reminderTier e.2.reminder_count with
    | none =>
      rw [show sweepStep now deliverOk (db, ms) e = (db, ms) from by simp [sweepStep, ht]]
      simp only [ht]
      exact ih db ms
    | some t =>
      by_cases hd : deliverOk e.1 = true
      · rw [show sweepStep now deliverOk (db, ms) e =
            (increment_reminder_count db e.1 now, ms ++ [(e.1, t)]) from by
              simp [sweepStep, ht, hd]]
        rw [ih _ _]
        simp [ht, hd]
      · rw [show sweepStep now deliverOk (db, ms) e = (db, ms) from by
            simp [sweepStep, ht, hd]]
        rw [ih db ms]
        simp [ht, hd]

/-- Claim C3 (amended): the effective send_proactive_reminders (the later of
the two definitions of that method, which Python binds) derives the tier from
the stored reminder_count as 1 sends the second-stage message, 2 sends the
final-stage message, and 0 as well as 3 or more send nothing; the delivered
messages are exactly the selected users with such a tier and successful
delivery; and after a send increment_reminder_count adds one to
reminder_count and sets last_reminder_at and last_activity_at to now. -/
theorem c3_tier_dispatch :
    reminderTier 0 = none ∧
    reminderTier 1 = some Tier.secondStage ∧
    reminderTier 2 = some Tier.finalStage ∧
    (∀ c : Nat, 3 ≤ c → reminderTier c = none) ∧
    (∀ (db : DB) (now : Time) (deliverOk : UserId → Bool),
      (send_proactive_reminders db now deliverOk).2 =
        (get_incomplete_verifications db now).filterMap (fun e =>
          match reminderTier e.2.reminder_count with
          | some t => if deliverOk e.1 then some (e.1, t) else none
          | none => none)) ∧
    (∀ (db : DB) (u : UserId) (now : Time) (row : ReminderRow),
      tget db.reminder_notifications u = some row →
      tget (increment_reminder_count db u now).reminder_notifications u =
        some { row with
          reminder_count := row.reminder_count + 1,
          last_reminder_date := some now,
          last_activity_date := now }) := by
  refine ⟨rfl, rfl, rfl, ?_, ?_, ?_⟩
  · intro c hc
    unfold reminderTier
    rw [if_neg (by omega), if_neg (by omega)]
  · intro db now deliverOk
    unfold send_proactive_reminders
    rw [sweep_fold_messages now deliverOk (get_incomplete_verifications db now) db []]
    simp
  · intro db u now row h
    unfold increment_reminder_count
    rw [tget_tupdate_self, h]
    rfl

/-- Witness for C3: a count of three is skipped, and a concrete increment
adds one and stamps both timestamps. -/
theorem c3_witness :
    reminderTier 3 = none ∧
    tget (increment_reminder_count db3 1 500).reminder_notifications 1 =
      some ⟨100, 1, 500, some 500, false, false⟩ := by
  have h := c3_tier_dispatch
  exact ⟨h.2.2.2.1 3 (by omega), h.2.2.2.2.2 db3 1 500 row3 (by decide)⟩

/-- Counterexample to C3 as stated: user 1 is selected by the sweep with a
stored reminder_count of 0, yet no message is sent and the database is left
unchanged, where the claim requires the second-stage message to be sent and
the count incremented. -/
theorem c3_counterexample :
    get_incomplete_verifications db3 990000 = [(1, row3)] ∧
    row3.reminder_count = 0 ∧
    send_proactive_reminders db3 990000 (fun _ => true) = (db3, []) := by decide

/-- Reduction of handle_join_request on a bot or admin requester. -/
theorem hjr_skip (admin : UserId) (db : DB) (user : TgUser) (chat : ChatId) (now : Time)
    (hg : user.is_bot = true ∨ user.id = admin) :
    handle_join_request admin db user chat now = (db, Decision.skip) := by
  unfold handle_join_request
  rw [if_pos hg]

/-- Reduction of handle_contact on a missing contact. -/
theorem handle_contact_none (lib : PhoneLib) (db : DB) (user : TgUser) (now : Time) :
    handle_contact lib db user none now =
      (update_user_activity db user.id now, Decision.noContact) := rfl

/-- Reduction of handle_contact on a contact owned by another account. -/
theorem handle_contact_foreign (lib : PhoneLib) (db : DB) (user : TgUser) (ct : Contact)
    (now : Time) (hown : ct.user_id ≠ user.id) :
    handle_contact lib db user (some ct) now =
      (update_user_activity db user.id now, Decision.rejectForeignContact) := by
  simp [handle_contact, hown]

/-- Reduction of handle_contact on an own contact that fails classification. -/
theorem handle_contact_failure (lib : PhoneLib) (db : DB) (user : TgUser) (ct : Contact)
    (now : Time) (hown : ct.user_id = user.id)
    (hm : (verify_phone_number lib ct.phone_number).is_filipino = false) :
    handle_contact lib db user (some ct) now =
      (add_verification_attempt (update_user_activity db user.id now) user.id ct.phone_number
        false (some ("Not Filipino number: " ++
          regionText (verify_phone_number lib ct.phone_number).region)) now,
       Decision.verifiedFailure (verify_phone_number lib ct.phone_number).region) := by
  simp [handle_contact, hown, hm]

/-- update_user_activity keeps the paused flag of an existing paused row. -/
theorem pausedAt_update_user_activity (db : DB) (u v : UserId) (now : Time)
    (h : pausedAt db u) : pausedAt (update_user_activity db v now) u := by
  obtain ⟨row, hr, hp⟩ := h
  by_cases huv : u = v
  · subst huv
    exact ⟨_, tget_tset_self _ _ _, by simp [hr, hp]⟩
  · refine ⟨row, ?_, hp⟩
    have h2 : tget (update_user_activity db v now).reminder_notifications u =
        tget db.reminder_notifications u := tget_tset_ne _ _ _ _ huv
    rw [h2]
    exact hr

/-- mark_verification_started keeps the paused flag of an existing paused row. -/
theorem pausedAt_mark_started (db : DB) (u v : UserId) (now : Time)
    (h : pausedAt db u) : pausedAt (mark_verification_started db v now) u := by
  obtain ⟨row, hr, hp⟩ := h
  by_cases huv : u = v
  · subst huv
    exact ⟨_, tget_tset_self _ _ _, by simp [hr, hp]⟩
  · refine ⟨row, ?_, hp⟩
    have h2 : tget (mark_verification_started db v now).reminder_notifications u =
        tget db.reminder_notifications u := tget_tset_ne _ _ _ _ huv
    rw [h2]
    exact hr

/-- increment_reminder_count does not change the paused flag. -/
theorem pausedAt_increment (db : DB) (u v : UserId) (now : Time)
    (h : pausedAt db u) : pausedAt (increment_reminder_count db v now) u := by
  obtain ⟨row, hr, hp⟩ := h
  by_cases huv : u = v
  · subst huv
    refine ⟨{ row with
        reminder_count := row.reminder_count + 1,
        last_reminder_date := some now,
        last_activity_date := now }, ?_, hp⟩
    unfold increment_reminder_count
    rw [tget_tupdate_self, hr]
    rfl
  · refine ⟨row, ?_, hp⟩
    have h2 : tget (increment_reminder_count db v now).reminder_notifications u =
        tget db.reminder_notifications u := tget_tupdate_ne _ _ _ _ huv
    rw [h2]
    exact hr

/-- pause_reminders leaves every already-paused row paused. -/
theorem pausedAt_pause (db : DB) (u v : UserId)
    (h : pausedAt db u) : pausedAt (pause_reminders db v) u := by
  obtain ⟨row, hr, hp⟩ := h
  by_cases huv : u = v
  · subst huv
    refine ⟨{ row with reminder_paused := true }, ?_, rfl⟩
    unfold pause_reminders
    rw [tget_tupdate_self, hr]
    rfl
  · refine ⟨row, ?_, hp⟩
    have h2 : tget (pause_reminders db v).reminder_notifications u =
        tget db.reminder_notifications u := tget_tupdate_ne _ _ _ _ huv
    rw [h2]
    exact hr

/-- The sweep loop preserves distinct keys and the paused flag. -/
theorem inv_sweep_fold (now : Time) (ok : UserId → Bool) (u : UserId) :
    ∀ (l : List (UserId × ReminderRow)) (db : DB) (ms : List (UserId × Tier)),
      (tkeys db.reminder_notifications).Nodup → pausedAt db u →
      (tkeys ((l.foldl (sweepStep now ok) (db, ms)).1).reminder_notifications).Nodup ∧
        pausedAt ((l.foldl (sweepStep now ok) (db, ms)).1) u := by
  intro l
  induction l with
  | nil =>
    intro db ms hnd hp
    exact ⟨hnd, hp⟩
  | cons e tl ih =>
    intro db ms hnd hp
    rw [List.foldl_cons]
    cases ht : reminderTier e.2.reminder_count with
    | none =>
      rw [show sweepStep now ok (db, ms) e = (db, ms) from by simp [sweepStep, ht]]
      exact ih db ms hnd hp
    | some t =>
      by_cases hd : ok e.1 = true
      · rw [show sweepStep now ok (db, ms) e =
            (increment_reminder_count db e.1 now, ms ++ [(e.1, t)]) from by
              simp [sweepStep, ht, hd]]
        refine ih _ _ ?_ (pausedAt_increment db u e.1 now hp)
        have hk : tkeys (increment_reminder_count db e.1 now).reminder_notifications =
            tkeys db.reminder_notifications := tkeys_tupdate _ _ _
        rw [hk]
        exact hnd
      · rw [show sweepStep now ok (db, ms) e = (db, ms) from by simp [sweepStep, ht, hd]]
        exact ih db ms hnd hp

/-- Every bot event preserves distinct reminder keys and the paused flag. -/
theorem inv_step (admin : UserId) (lib : PhoneLib) (db : DB) (e : Event) (u : UserId)
    (hnd : (tkeys db.reminder_notifications).Nodup) (hp : pausedAt db u) :
    (tkeys (step admin lib db e).reminder_notifications).Nodup ∧
      pausedAt (step admin lib db e) u := by
  cases e with
  | joinRequest user chat now =>
    show (tkeys (handle_join_request admin db user chat now).1.reminder_notifications).Nodup ∧
      pausedAt (handle_join_request admin db user chat now).1 u
    by_cases hg : user.is_bot = true ∨ user.id = admin
    · rw [hjr_skip admin db user chat now hg]
      exact ⟨hnd, hp⟩
    · have hbot : user.is_bot = false := by
        cases hb : user.is_bot
        · rfl
        · exact absurd (Or.inl hb) hg
      have hadmin : user.id ≠ admin := fun e2 => hg (Or.inr e2)
      cases hv : is_verified db user.id with
      | true =>
        rw [hjr_verified admin db user chat now hbot hadmin hv]
        exact ⟨nodup_tkeys_tset _ _ _ hnd,
          pausedAt_update_user_activity _ u user.id now hp⟩
      | false =>
        rw [hjr_unverified admin db user chat now hbot hadmin hv]
        exact ⟨nodup_tkeys_tset _ _ _ hnd,
          pausedAt_update_user_activity _ u user.id now hp⟩
  | startCmd user now =>
    show (tkeys (start_command db user now).reminder_notifications).Nodup ∧
      pausedAt (start_command db user now) u
    exact ⟨nodup_tkeys_tset _ _ _ (nodup_tkeys_tset _ _ _ hnd),
      pausedAt_mark_started _ u user.id now
        (pausedAt_update_user_activity db u user.id now hp)⟩
  | contactMsg user contact now =>
    show (tkeys (handle_contact lib db user contact now).1.reminder_notifications).Nodup ∧
      pausedAt (handle_contact lib db user contact now).1 u
    have hbase := pausedAt_update_user_activity db u user.id now hp
    have hndb : (tkeys (update_user_activity db user.id now).reminder_notifications).Nodup :=
      nodup_tkeys_tset _ _ _ hnd
    cases contact with
    | none =>
      rw [handle_contact_none]
      exact ⟨hndb, hbase⟩
    | some ct =>
      by_cases hown : ct.user_id = user.id
      · cases hm : (verify_phone_number lib ct.phone_number).is_filipino with
        | true =>
          rw [handle_contact_success lib db user ct now hown hm]
          exact ⟨hndb, hbase⟩
        | false =>
          rw [handle_contact_failure lib db user ct now hown hm]
          exact ⟨hndb, hbase⟩
      · rw [handle_contact_foreign lib db user ct now hown]
        exact ⟨hndb, hbase⟩
  | pauseCmd user now =>
    show (tkeys (pause_reminders_command db user now).reminder_notifications).Nodup ∧
      pausedAt (pause_reminders_command db user now) u
    refine ⟨?_, pausedAt_pause _ u user.id
      (pausedAt_update_user_activity db u user.id now hp)⟩
    have hk : tkeys (pause_reminders_command db user now).reminder_notifications =
        tkeys (update_user_activity db user.id now).reminder_notifications :=
      tkeys_tupdate _ _ _
    rw [hk]
    exact nodup_tkeys_tset _ _ _ hnd
  | activityCmd user now =>
    exact ⟨nodup_tkeys_tset _ _ _ hnd,
      pausedAt_update_user_activity db u user.id now hp⟩
  | banCmd target =>
    show (tkeys (ban_user_command admin db target).reminder_notifications).Nodup ∧
      pausedAt (ban_user_command admin db target) u
    unfold ban_user_command
    by_cases ht : target = admin
    · rw [if_pos ht]
      exact ⟨hnd, hp⟩
    · rw [if_neg ht]
      exact ⟨hnd, hp⟩
  | sweep now ok =>
    show (tkeys (send_proactive_reminders db now ok).1.reminder_notifications).Nodup ∧
      pausedAt (send_proactive_reminders db now ok).1 u
    unfold send_proactive_reminders
    exact inv_sweep_fold now ok u (get_incomplete_verifications db now) db [] hnd hp

/-- Running one more event from the front of a trace. -/
theorem run_cons (admin : UserId) (lib : PhoneLib) (db : DB) (e : Event) (es : List Event) :
    run admin lib db (e :: es) = run admin lib (step admin lib db e) es := rfl

/-- Any event trace preserves distinct reminder keys and the paused flag. -/
theorem inv_run (admin : UserId) (lib : PhoneLib) (events : List Event) :
    ∀ (db : DB) (u : UserId),
      (tkeys db.reminder_notifications).Nodup → pausedAt db u →
      (tkeys (run admin lib db events).reminder_notifications).Nodup ∧
        pausedAt (run admin lib db events) u := by
  induction events with
  | nil => exact fun db u hnd hp => ⟨hnd, hp⟩
  | cons e es ih =>
    intro db u hnd hp
    rw [run_cons]
    obtain ⟨h1, h2⟩ := inv_step admin lib db e u hnd hp
    exact ih (step admin lib db e) u h1 h2

/-- Claim C9: once a user is paused, no reachable sequence of bot events
(join requests, start command, contact submissions, pause or activity
commands, admin bans, sweep ticks) ever resets the flag, and the proactive
sweep selection never contains that user again. -/
theorem c9_pause_is_sticky (admin : UserId) (lib : PhoneLib) (db : DB) (events : List Event)
    (u : UserId) (row : ReminderRow)
    (hnd : (tkeys db.reminder_notifications).Nodup)
    (hrow : tget db.reminder_notifications u = some row)
    (hpaused : row.reminder_paused = true) :
    ∃ row2, tget (run admin lib db events).reminder_notifications u = some row2 ∧
      row2.reminder_paused = true ∧
      ∀ (now : Time) (r : ReminderRow),
        (u, r) ∉ get_incomplete_verifications (run admin lib db events) now := by
  obtain ⟨hnd2, hp2⟩ := inv_run admin lib events db u hnd ⟨row, hrow, hpaused⟩
  obtain ⟨row2, hr2, hpp⟩ := hp2
  refine ⟨row2, hr2, hpp, ?_⟩
  intro now r hmem
  have hmem2 := List.mem_filter.mp hmem
  have hpred := (incomplete_pred_iff (run admin lib db events) now u r).mp hmem2.2
  have hget := tget_of_mem_nodup _ u r hnd2 hmem2.1
  rw [hget] at hr2
  injection hr2 with e2
  rw [← e2] at hpp
  rw [hpred.2.1] at hpp
  exact Bool.false_ne_true hpp

/-- Witness for C9: a concrete paused user stays paused and unselected across
a join request, a start command and a sweep tick. -/
theorem c9_witness :
    ∃ row2, tget (run 999 phonelib dbPaused evs9).reminder_notifications 1 = some row2 ∧
      row2.reminder_paused = true ∧
      ∀ (now : Time) (r : ReminderRow),
        (1, r) ∉ get_incomplete_verifications (run 999 phonelib dbPaused evs9) now :=
  c9_pause_is_sticky 999 phonelib dbPaused evs9 1 ⟨0, 1, 0, some 0, false, true⟩
    (by decide) (by decide) rfl

end CountryBlockerPH
